import Mathlib

/-!
Verification of the General Bots browser extension (background service worker,
popup script, and WhatsApp Web content script) against its natural-language
specification.

The stateful JavaScript is embedded shallowly:

* `chrome.storage.sync` is a record (`Settings`); every code path that writes
  it becomes an explicit `Settings → Settings` function.
* A `fetch` call together with `response.ok` / `response.json()` handling is
  a `FetchOutcome` argument: `ok data` models a 2xx response whose parsed
  JSON body is `data`, `httpError status` models a non-2xx response (the
  source throws and lands in its `catch` block), and `netError msg` models a
  rejected fetch (network failure), which also lands in the `catch` block.
* Optional JSON fields are `Option` values; a JS `undefined` field is `none`.
* Handlers additionally return the number of outbound network requests they
  issue, so that "no network call" claims are statable.
* JS strings are modelled as `String` / `List Char` (sequences of characters;
  the UTF-16 surrogate representation of astral code points is not modelled).
-/

/-- Kinds of outcome of a JS `await fetch(...)` plus `response.ok` check:
a 2xx response with parsed JSON `data`, a non-2xx response (the source throws
`Server error: <status>` into its catch block), or a transport failure. -/
inductive FetchOutcome (α : Type) where
  | ok (data : α)
  | httpError (status : Nat)
  | netError (msg : String)
deriving DecidableEq

/-- The `chrome.storage.sync` record. Field defaults are the source's
`DEFAULT_CONFIG` (src/background.js lines 5-15); `authenticated`,
`authPending` and `authRequestId` are extra keys written by the auth flow,
absent (falsy, modelled by their defaults) on a fresh install. -/
structure Settings where
  serverUrl : String := "https://api.generalbots.com"
  gbServerUrl : String := "https://api.pragmatismo.com.br"
  enableProcessing : Bool := true
  hideContacts : Bool := false
  autoMode : Bool := false
  grammarCorrection : Bool := true
  whatsappNumber : String := ""
  authToken : String := ""
  instanceId : String := ""
  authenticated : Bool := false
  authPending : Bool := false
  authRequestId : String := ""
deriving DecidableEq

/-- The default configuration (src/background.js `DEFAULT_CONFIG`). -/
def DEFAULT_CONFIG : Settings := {}

/-- JS `v || fallback` for a string-valued field that may be `undefined`:
`undefined`, `null` and the empty string are falsy, so the fallback is used
exactly when the field is missing or empty. -/
def jsStringOr (v : Option String) (fallback : String) : String :=
  match v with
  | some s => if s = "" then fallback else s
  | none => fallback

/-- Parsed JSON body of a 2xx `/api/v1/llm/process` response. -/
structure ProcessResponse where
  processedText : Option String := none
  corrections : Option (List String) := none
deriving DecidableEq

/-- Value resolved by `handleProcessText`. `corrections = none` models the
field being absent from the returned object, and likewise for `error`. -/
structure ProcessResult where
  processedText : String
  changed : Bool
  corrections : Option (List String) := none
  error : Option String := none
deriving DecidableEq

/-- src/background.js `handleProcessText` (lines 134-173). Returns the
resolved value paired with the number of network requests issued. The JS
`changed: data.processedText !== text` compares the raw response field (an
`undefined` field is never strictly equal to a string), and
`data.processedText || text` falls back to the input on a missing or empty
field. -/
def handleProcessText (settings : Settings) (text : String)
    (fetch : FetchOutcome ProcessResponse) : ProcessResult × Nat :=
  if !settings.enableProcessing then
    ({ processedText := text, changed := false }, 0)
  else
    match fetch with
    | .ok data =>
        ({ processedText := jsStringOr data.processedText text,
           changed := decide (data.processedText ≠ some text),
           corrections := some (data.corrections.getD []) }, 1)
    | .httpError status =>
        ({ processedText := text, changed := false,
           error := some ("Server error: " ++ toString status) }, 1)
    | .netError msg =>
        ({ processedText := text, changed := false, error := some msg }, 1)

/-- Parsed JSON body of a 2xx `/api/v1/llm/grammar` response. -/
structure GrammarResponse where
  correctedText : Option String := none
  corrections : Option (List String) := none
  detectedLanguage : Option String := none
deriving DecidableEq

/-- Value resolved by `handleGrammarCorrection`; the catch branch returns an
object without `original`, `corrections` or `language` fields. -/
structure GrammarResult where
  processedText : String
  original : Option String := none
  corrections : Option (List String) := none
  language : Option String := none
  error : Option String := none
deriving DecidableEq

/-- src/background.js `handleGrammarCorrection` (lines 176-208), with the
issued-request count. There is no `enableProcessing` short-circuit here: the
request is always attempted. -/
def handleGrammarCorrection (settings : Settings) (text : String)
    (fetch : FetchOutcome GrammarResponse) : GrammarResult × Nat :=
  match fetch with
  | .ok data =>
      ({ processedText := jsStringOr data.correctedText text,
         original := some text,
         corrections := some (data.corrections.getD []),
         language := data.detectedLanguage }, 1)
  | .httpError status =>
      ({ processedText := text,
         error := some ("Server error: " ++ toString status) }, 1)
  | .netError msg =>
      ({ processedText := text, error := some msg }, 1)

/-- Parsed JSON body of a 2xx `/api/v1/llm/auto-reply` response. -/
structure AutoReplyData where
  suggestedReply : Option String := none
  confidence : Option Nat := none
  autoSend : Bool := false
deriving DecidableEq

/-- Value resolved by `handleAutoReply`; absent JS fields are the defaults
(`autoSend` absent is falsy, modelled as `false`). -/
structure AutoReplyResult where
  reply : Option String := none
  confidence : Option Nat := none
  autoSend : Bool := false
  autoModeDisabled : Bool := false
  error : Option String := none
deriving DecidableEq

/-- src/background.js `handleAutoReply` (lines 211-250). `settings` is the
single `chrome.storage.sync.get` snapshot taken at function entry, before the
server request; the `autoSend: data.autoSend && settings.autoMode` field is
computed from that same snapshot after the response arrives. -/
def handleAutoReply (settings : Settings)
    (fetch : FetchOutcome AutoReplyData) : AutoReplyResult × Nat :=
  if !settings.autoMode then
    ({ reply := none, autoModeDisabled := true }, 0)
  else
    match fetch with
    | .ok data =>
        ({ reply := data.suggestedReply,
           confidence := data.confidence,
           autoSend := data.autoSend && settings.autoMode }, 1)
    | .httpError status =>
        ({ reply := none,
           error := some ("Server error: " ++ toString status) }, 1)
    | .netError msg =>
        ({ reply := none, error := some msg }, 1)

/-- JS truthiness of a string-or-undefined value (`undefined` and the empty
string are falsy). -/
def truthyString : Option String → Bool
  | some s => decide (s ≠ "")
  | none => false

/-- The content script's `generateAutoReply` response callback
(src/unnamed/part_000 lines 351-356): it dispatches the reply via
`sendAutoReply` exactly when `response.reply` and `response.autoSend` are
both truthy. It consults no stored setting at this point. -/
def contentScriptDispatches (response : AutoReplyResult) : Bool :=
  truthyString response.reply && response.autoSend

/-- One full auto-reply request/response cycle. `settingsAtRequest` is the
storage snapshot read by `handleAutoReply` when the request is handled;
`storedAutoModeAtSend` is the value of the persisted `autoMode` setting at
the moment the suggested reply would be dispatched (it may differ if the
user toggled the setting while the server request was in flight). The
dispatch decision is computed by the code from the response alone, so
`storedAutoModeAtSend` does not influence it — which is exactly what the
race-guard claim is about. -/
def autoReplyCycleDispatches (settingsAtRequest : Settings)
    (storedAutoModeAtSend : Bool) (fetch : FetchOutcome AutoReplyData) : Bool :=
  contentScriptDispatches (handleAutoReply settingsAtRequest fetch).1

/-- Parsed JSON body of a 2xx `/api/v1/auth/whatsapp/status/:id` response.
The remote contract marks `token` and `instanceId` as optional; an absent
field is modelled as the empty string (the falsy value the code would
persist). -/
structure StatusData where
  status : String
  token : String := ""
  instanceId : String := ""
  message : Option String := none
deriving DecidableEq

/-- Outcome of one invocation of `pollAuthCompletion`. -/
inductive PollStep where
  | timedOut
  | completed (token instanceId : String)
  | failed (message : Option String)
  | reschedule (nextAttempt : Nat)
deriving DecidableEq

/-- src/background.js `pollAuthCompletion` (lines 304-355), one invocation:
the step taken, paired with the number of network requests issued. A non-2xx
status response, an unrecognized `status` string and a network failure all
fall through to the rescheduling `setTimeout`, which passes `attempts + 1`. -/
def pollAuthCompletion (attempts : Nat)
    (fetch : FetchOutcome StatusData) : PollStep × Nat :=
  if attempts > 60 then (.timedOut, 0)
  else
    match fetch with
    | .ok data =>
        if data.status = "completed" then (.completed data.token data.instanceId, 1)
        else if data.status = "failed" then (.failed data.message, 1)
        else (.reschedule (attempts + 1), 1)
    | .httpError _ => (.reschedule (attempts + 1), 1)
    | .netError _ => (.reschedule (attempts + 1), 1)

/-- The `chrome.storage.sync.set` write performed by the invocation of
`pollAuthCompletion` that takes the given step (none for a reschedule). -/
def applyPollStep (step : PollStep) (st : Settings) : Settings :=
  match step with
  | .timedOut => { st with authPending := false }
  | .completed token instanceId =>
      { st with authToken := token, instanceId := instanceId,
                authPending := false, authenticated := true }
  | .failed _ => { st with authPending := false }
  | .reschedule _ => st

/-- The pending-state write performed by src/background.js
`handleAuthentication` (lines 280-284) after a successful pairing request. -/
def authRequestSave (st : Settings) (whatsappNumber requestId : String) : Settings :=
  { st with whatsappNumber := whatsappNumber, authPending := true,
            authRequestId := requestId }

/-- Value resolved by `getAuthStatus`. -/
structure AuthStatusResult where
  authenticated : Bool
  whatsappNumber : Option String := none
  instanceId : Option String := none
deriving DecidableEq

/-- The token-clearing write in src/background.js `getAuthStatus`
(lines 392-396). -/
def clearAuthWrite (st : Settings) : Settings :=
  { st with authToken := "", authenticated := false }

/-- src/background.js `getAuthStatus` (lines 358-399): resolved value and
resulting storage state. With no stored token it returns immediately;
otherwise a 2xx verify response confirms authentication, and any other
outcome (non-2xx or network failure) falls through to the clearing write. -/
def getAuthStatus (st : Settings) (verify : FetchOutcome Unit) :
    AuthStatusResult × Settings :=
  if st.authToken = "" then ({ authenticated := false }, st)
  else
    match verify with
    | .ok _ =>
        ({ authenticated := true, whatsappNumber := some st.whatsappNumber,
           instanceId := some st.instanceId }, st)
    | .httpError _ => ({ authenticated := false }, clearAuthWrite st)
    | .netError _ => ({ authenticated := false }, clearAuthWrite st)

/-- The spec's settings invariant: the stored token is empty exactly when
the stored `authenticated` flag is false. -/
def authInvariant (st : Settings) : Prop :=
  st.authToken = "" ↔ st.authenticated = false

instance (st : Settings) : Decidable (authInvariant st) := by
  unfold authInvariant; infer_instance

/-- The full background polling loop: starting at attempt number `attempts`,
run `pollAuthCompletion` against the stream of per-attempt fetch outcomes
`responses`, rescheduling with `attempts + 1` exactly as the source's
`setTimeout(() => pollAuthCompletion(requestId, attempts + 1), 5000)` does.
Returns the terminal step, the total number of invocations, and the total
number of network requests issued. -/
def pollLoop (responses : Nat → FetchOutcome StatusData) (attempts : Nat) :
    PollStep × Nat × Nat :=
  match h : pollAuthCompletion attempts (responses attempts) with
  | (.reschedule _, calls) =>
      let rest := pollLoop responses (attempts + 1)
      (rest.1, rest.2.1 + 1, rest.2.2 + calls)
  | (step, calls) => (step, 1, calls)
termination_by 61 - attempts
decreasing_by
  have hle : attempts ≤ 60 := by
    by_contra hc
    have hgt : attempts > 60 := by omega
    unfold pollAuthCompletion at h
    rw [if_pos hgt] at h
    simp at h
  omega

/-- Outcome of one invocation of the popup's `pollAuthStatus`. -/
inductive PopupPollStep where
  | timedOut
  | connected
  | reschedule (nextAttempt : Nat)
deriving DecidableEq

/-- src/popup.js `pollAuthStatus` (lines 212-230), one invocation: the
attempt cap is checked before the 5-second wait and the `checkAuthStatus`
round trip, so the timed-out branch issues no request. The second component
counts `getAuthStatus` round trips issued. -/
def pollAuthStatus (attempts : Nat) (authenticated : Bool) :
    PopupPollStep × Nat :=
  if attempts > 60 then (.timedOut, 0)
  else if authenticated then (.connected, 1)
  else (.reschedule (attempts + 1), 1)

/-- JS `String.prototype.trim`: strip leading and trailing whitespace.
(`Char.isWhitespace` covers the ASCII whitespace the claims exercise.) -/
def jsTrim (s : String) : String :=
  String.mk (((s.data.dropWhile Char.isWhitespace).reverse.dropWhile
    Char.isWhitespace).reverse)

/-- Characters removed by the popup's `number.replace(/[\s\-\(\)]/g, "")`:
whitespace, dashes and parentheses. -/
def isStrippedChar (c : Char) : Bool :=
  c.isWhitespace || c = '-' || c = '(' || c = ')'

/-- src/popup.js line 173: strip spaces, dashes and parentheses from the
entered number. -/
def cleanWhatsappNumber (s : String) : String :=
  String.mk (s.data.filter (fun c => !isStrippedChar c))

/-- The popup's phone-format test `/^\+?[0-9]{10,15}$/.test s`: an optional
leading plus sign followed by 10 to 15 ASCII digits and nothing else. -/
def phoneRegexAccepts (s : String) : Bool :=
  let body := match s.data with
    | '+' :: rest => rest
    | cs => cs
  body.all Char.isDigit && decide (10 ≤ body.length) && decide (body.length ≤ 15)

/-- Outcome of the popup's `handleAuthentication` validation flow: both
`emptyInput` and `invalidFormat` surface an input-validation error via
`showError` and return before any message or request is issued;
`requestSent` forwards the cleaned number to the background worker. -/
inductive PopupAuthOutcome where
  | emptyInput
  | invalidFormat
  | requestSent (cleanNumber : String)
deriving DecidableEq

/-- src/popup.js `handleAuthentication` (lines 161-209): trim the input,
reject an empty value, clean it, test the phone regex, and only then send
the `authenticate` request. -/
def popupHandleAuthentication (rawInput : String) : PopupAuthOutcome :=
  let number := jsTrim rawInput
  if number = "" then .emptyInput
  else
    let cleanNumber := cleanWhatsappNumber number
    if phoneRegexAccepts cleanNumber then .requestSent cleanNumber
    else .invalidFormat

/-- Number of authentication request messages (and hence HTTP pairing
requests) issued by a popup authentication outcome. -/
def popupAuthRequestsSent : PopupAuthOutcome → Nat
  | .requestSent _ => 1
  | _ => 0

/-- Inner loop of the source's dynamic program (src/unnamed/part_000 lines
655-663): given row `i` of the table (`prev j` is `dp[i][j]`), compute row
`i + 1` entry by entry; `dp[i+1][0] = i + 1` is the column initialisation
and the recurrence compares `str1[i]` with `str2[j]` (0-based), taking
`dp[i][j]` on a match and `min(dp[i][j], dp[i][j+1], dp[i+1][j]) + 1`
otherwise. Out-of-range lookups compare as equal `none`s, matching JS
`undefined === undefined`; the source only ever evaluates in range. -/
def levRow (s1 s2 : List Char) (i : Nat) (prev : Nat → Nat) : Nat → Nat
  | 0 => i + 1
  | j + 1 =>
      if s1[i]? = s2[j]? then prev j
      else min (prev j) (min (prev (j + 1)) (levRow s1 s2 i prev j)) + 1

/-- Rows of the source's Levenshtein table: `levTableRow s1 s2 i j` is
`dp[i][j]`, with `dp[0][j] = j` the row initialisation (src/unnamed/part_000
lines 652-653). -/
def levTableRow (s1 s2 : List Char) : Nat → Nat → Nat
  | 0 => fun j => j
  | i + 1 => levRow s1 s2 i (levTableRow s1 s2 i)

/-- src/unnamed/part_000 `levenshteinDistance` (lines 645-666): the final
table entry `dp[m][n]`. -/
def levenshteinDistance (str1 str2 : String) : Nat :=
  levTableRow str1.data str2.data str1.data.length str2.data.length

/-- src/unnamed/part_000 `showCorrectionPreview` (lines 224-279), as a
decision function. `userChoice` is the external input: `some true` is a
click on the accept button, `some false` a click on reject, and `none`
means no input arrived before the 5-second auto-close (which resolves to
accept). Returns (resolved decision, whether the confirmation modal was
presented); when the Levenshtein distance is below 3 the flow resolves to
accept before the modal is ever created. -/
def showCorrectionPreview (original corrected : String)
    (userChoice : Option Bool) : Bool × Bool :=
  if levenshteinDistance original corrected < 3 then (true, false)
  else
    match userChoice with
    | some accepted => (accepted, true)
    | none => (true, true)

/-- Reference Levenshtein distance, by recursion on the two strings: the
classic minimum of substitution, deletion and insertion. -/
def levRec : List Char → List Char → Nat
  | [], ys => ys.length
  | _ :: xs, [] => xs.length + 1
  | x :: xs, y :: ys =>
      if x = y then levRec xs ys
      else min (levRec xs ys) (min (levRec xs (y :: ys)) (levRec (x :: xs) ys)) + 1
termination_by xs ys => xs.length + ys.length
decreasing_by all_goals (simp [List.length_cons] <;> omega)

/-- Edit scripts: `Edits xs ys n` holds when `xs` can be transformed into
`ys` using exactly `n` single-character insertions, deletions and
substitutions (processing both strings left to right, matching characters
kept for free). The minimum such `n` is the classic edit distance. -/
inductive Edits : List Char → List Char → Nat → Prop where
  | nil : Edits [] [] 0
  | keep (c : Char) {xs ys : List Char} {n : Nat} :
      Edits xs ys n → Edits (c :: xs) (c :: ys) n
  | subst (a b : Char) {xs ys : List Char} {n : Nat} :
      Edits xs ys n → Edits (a :: xs) (b :: ys) (n + 1)
  | delete (a : Char) {xs ys : List Char} {n : Nat} :
      Edits xs ys n → Edits (a :: xs) ys (n + 1)
  | insert (b : Char) {xs ys : List Char} {n : Nat} :
      Edits xs ys n → Edits xs (b :: ys) (n + 1)

theorem levRec_nil_left (ys : List Char) : levRec [] ys = ys.length := by
  simp [levRec]

theorem levRec_nil_right (xs : List Char) : levRec xs [] = xs.length := by
  cases xs <;> simp [levRec]

theorem levRec_cons_cons (x y : Char) (xs ys : List Char) :
    levRec (x :: xs) (y :: ys) =
      if x = y then levRec xs ys
      else min (levRec xs ys) (min (levRec xs (y :: ys)) (levRec (x :: xs) ys)) + 1 := by
  simp [levRec]

theorem levRec_lipschitz :
    ∀ (N : Nat) (xs ys : List Char), xs.length + ys.length ≤ N →
      (∀ a, levRec (a :: xs) ys ≤ levRec xs ys + 1) ∧
      (∀ b, levRec xs (b :: ys) ≤ levRec xs ys + 1) ∧
      (∀ a, levRec xs ys ≤ levRec (a :: xs) ys + 1) ∧
      (∀ b, levRec xs ys ≤ levRec xs (b :: ys) + 1) := by
  intro N
  induction N with
  | zero =>
      intro xs ys hlen
      obtain rfl : xs = [] := List.eq_nil_of_length_eq_zero (by omega)
      obtain rfl : ys = [] := List.eq_nil_of_length_eq_zero (by omega)
      refine ⟨fun a => ?_, fun b => ?_, fun a => ?_, fun b => ?_⟩ <;>
        simp [levRec_nil_left, levRec_nil_right]
  | succ N ih =>
      intro xs ys hlen
      refine ⟨fun a => ?_, fun b => ?_, fun a => ?_, fun b => ?_⟩
      · cases ys with
        | nil => simp [levRec_nil_right]
        | cons y t =>
            simp only [List.length_cons] at hlen
            by_cases hay : a = y
            · subst hay
              rw [levRec_cons_cons, if_pos rfl]
              exact (ih xs t (by omega)).2.2.2 a
            · rw [levRec_cons_cons, if_neg hay]
              omega
      · cases xs with
        | nil => simp [levRec_nil_left]
        | cons x s =>
            simp only [List.length_cons] at hlen
            by_cases hxb : x = b
            · subst hxb
              rw [levRec_cons_cons, if_pos rfl]
              exact (ih s ys (by omega)).2.2.1 x
            · rw [levRec_cons_cons, if_neg hxb]
              omega
      · cases ys with
        | nil => simp [levRec_nil_right]; omega
        | cons y t =>
            simp only [List.length_cons] at hlen
            by_cases hay : a = y
            · subst hay
              rw [levRec_cons_cons, if_pos rfl]
              exact (ih xs t (by omega)).2.1 a
            · rw [levRec_cons_cons, if_neg hay]
              have h1 := (ih xs t (by omega)).2.1 y
              have h2 := (ih xs t (by omega)).2.2.1 a
              omega
      · cases xs with
        | nil => simp [levRec_nil_left]; omega
        | cons x s =>
            simp only [List.length_cons] at hlen
            by_cases hxb : x = b
            · subst hxb
              rw [levRec_cons_cons, if_pos rfl]
              exact (ih s ys (by omega)).1 x
            · rw [levRec_cons_cons, if_neg hxb]
              have h1 := (ih s ys (by omega)).1 x
              have h2 := (ih s ys (by omega)).2.2.2 b
              omega

theorem levRec_cons_le_left (xs ys : List Char) (a : Char) :
    levRec (a :: xs) ys ≤ levRec xs ys + 1 :=
  (levRec_lipschitz (xs.length + ys.length) xs ys le_rfl).1 a

theorem levRec_cons_le_right (xs ys : List Char) (b : Char) :
    levRec xs (b :: ys) ≤ levRec xs ys + 1 :=
  (levRec_lipschitz (xs.length + ys.length) xs ys le_rfl).2.1 b

theorem edits_nil_insert (ys : List Char) : Edits [] ys ys.length := by
  induction ys with
  | nil => exact .nil
  | cons y t ih => exact .insert y ih

theorem edits_nil_delete (xs : List Char) : Edits xs [] xs.length := by
  induction xs with
  | nil => exact .nil
  | cons x s ih => exact .delete x ih

theorem edits_levRec :
    ∀ (N : Nat) (xs ys : List Char), xs.length + ys.length ≤ N →
      Edits xs ys (levRec xs ys) := by
  intro N
  induction N with
  | zero =>
      intro xs ys hlen
      obtain rfl : xs = [] := List.eq_nil_of_length_eq_zero (by omega)
      obtain rfl : ys = [] := List.eq_nil_of_length_eq_zero (by omega)
      simpa [levRec_nil_left] using Edits.nil
  | succ N ih =>
      intro xs ys hlen
      match xs, ys with
      | [], ys =>
          rw [levRec_nil_left]
          exact edits_nil_insert ys
      | x :: s, [] =>
          rw [levRec_nil_right]
          exact edits_nil_delete (x :: s)
      | x :: s, y :: t =>
          simp only [List.length_cons] at hlen
          by_cases hxy : x = y
          · subst hxy
            rw [levRec_cons_cons, if_pos rfl]
            exact .keep x (ih s t (by omega))
          · rw [levRec_cons_cons, if_neg hxy]
            have e1 := ih s t (by omega)
            have e2 := ih s (y :: t) (by simp only [List.length_cons]; omega)
            have e3 := ih (x :: s) t (by simp only [List.length_cons]; omega)
            have hmin :
                min (levRec s t) (min (levRec s (y :: t)) (levRec (x :: s) t)) = levRec s t ∨
                min (levRec s t) (min (levRec s (y :: t)) (levRec (x :: s) t)) = levRec s (y :: t) ∨
                min (levRec s t) (min (levRec s (y :: t)) (levRec (x :: s) t)) = levRec (x :: s) t := by
              omega
            rcases hmin with h | h | h <;> rw [h]
            · exact .subst x y e1
            · exact .delete x e2
            · exact .insert y e3

theorem levRec_le_of_edits {xs ys : List Char} {n : Nat}
    (h : Edits xs ys n) : levRec xs ys ≤ n := by
  induction h with
  | nil => simp [levRec_nil_left]
  | keep c h ih => rw [levRec_cons_cons, if_pos rfl]; exact ih
  | subst a b h ih =>
      by_cases hab : a = b
      · subst hab; rw [levRec_cons_cons, if_pos rfl]; omega
      · rw [levRec_cons_cons, if_neg hab]; omega
  | delete a h ih =>
      rename_i as bs m
      have hlip := levRec_cons_le_left as bs a
      omega
  | insert b h ih =>
      rename_i as bs m
      have hlip := levRec_cons_le_right as bs b
      omega

theorem Edits.snoc_keep {xs ys : List Char} {n : Nat}
    (h : Edits xs ys n) (c : Char) : Edits (xs ++ [c]) (ys ++ [c]) n := by
  induction h with
  | nil => exact .keep c .nil
  | keep d h ih => exact .keep d ih
  | subst a b h ih => exact .subst a b ih
  | delete a h ih => exact .delete a ih
  | insert b h ih => exact .insert b ih

theorem Edits.snoc_subst {xs ys : List Char} {n : Nat}
    (h : Edits xs ys n) (a b : Char) : Edits (xs ++ [a]) (ys ++ [b]) (n + 1) := by
  induction h with
  | nil => exact .subst a b .nil
  | keep d h ih => exact .keep d ih
  | subst c d h ih => exact .subst c d ih
  | delete c h ih => exact .delete c ih
  | insert d h ih => exact .insert d ih

theorem Edits.snoc_delete {xs ys : List Char} {n : Nat}
    (h : Edits xs ys n) (a : Char) : Edits (xs ++ [a]) ys (n + 1) := by
  induction h with
  | nil => exact .delete a .nil
  | keep d h ih => exact .keep d ih
  | subst c d h ih => exact .subst c d ih
  | delete c h ih => exact .delete c ih
  | insert d h ih => exact .insert d ih

theorem Edits.snoc_insert {xs ys : List Char} {n : Nat}
    (h : Edits xs ys n) (b : Char) : Edits xs (ys ++ [b]) (n + 1) := by
  induction h with
  | nil => exact .insert b .nil
  | keep d h ih => exact .keep d ih
  | subst c d h ih => exact .subst c d ih
  | delete c h ih => exact .delete c ih
  | insert d h ih => exact .insert d ih

theorem Edits.rev {xs ys : List Char} {n : Nat}
    (h : Edits xs ys n) : Edits xs.reverse ys.reverse n := by
  induction h with
  | nil => exact .nil
  | keep c h ih => simpa [List.reverse_cons] using ih.snoc_keep c
  | subst a b h ih => simpa [List.reverse_cons] using ih.snoc_subst a b
  | delete a h ih => simpa [List.reverse_cons] using ih.snoc_delete a
  | insert b h ih => simpa [List.reverse_cons] using ih.snoc_insert b

theorem levRec_reverse (xs ys : List Char) :
    levRec xs.reverse ys.reverse = levRec xs ys := by
  have h1 : ∀ as bs : List Char, levRec as.reverse bs.reverse ≤ levRec as bs := by
    intro as bs
    exact levRec_le_of_edits (edits_levRec (as.length + bs.length) as bs le_rfl).rev
  apply le_antisymm
  · exact h1 xs ys
  · simpa [List.reverse_reverse] using h1 xs.reverse ys.reverse

theorem levTableRow_eq_levRec :
    ∀ (N : Nat) (s1 s2 : List Char) (i j : Nat), i + j ≤ N →
      i ≤ s1.length → j ≤ s2.length →
      levTableRow s1 s2 i j = levRec ((s1.take i).reverse) ((s2.take j).reverse) := by
  intro N
  induction N with
  | zero =>
      intro s1 s2 i j hN hi hj
      obtain rfl : i = 0 := by omega
      obtain rfl : j = 0 := by omega
      simp [levTableRow, levRec_nil_left]
  | succ N ih =>
      intro s1 s2 i j hN hi hj
      match i, j with
      | 0, j =>
          simp only [levTableRow, List.take_zero, List.reverse_nil, levRec_nil_left,
            List.length_reverse, List.length_take]
          omega
      | i + 1, 0 =>
          simp only [levTableRow, levRow, List.take_zero, List.reverse_nil,
            levRec_nil_right, List.length_reverse, List.length_take]
          omega
      | i + 1, j + 1 =>
          have hi1 : i < s1.length := by omega
          have hj1 : j < s2.length := by omega
          have htake1 : s1.take (i + 1) = s1.take i ++ [s1[i]] := by
            rw [List.take_succ, List.getElem?_eq_getElem hi1]
            rfl
          have htake2 : s2.take (j + 1) = s2.take j ++ [s2[j]] := by
            rw [List.take_succ, List.getElem?_eq_getElem hj1]
            rfl
          have hrev1 : (s1.take (i + 1)).reverse = s1[i] :: (s1.take i).reverse := by
            rw [htake1]; simp
          have hrev2 : (s2.take (j + 1)).reverse = s2[j] :: (s2.take j).reverse := by
            rw [htake2]; simp
          rw [hrev1, hrev2, levRec_cons_cons]
          simp only [levTableRow, levRow, List.getElem?_eq_getElem hi1,
            List.getElem?_eq_getElem hj1, Option.some.injEq]
          have h1 : levTableRow s1 s2 i j =
              levRec ((s1.take i).reverse) ((s2.take j).reverse) :=
            ih s1 s2 i j (by omega) (by omega) (by omega)
          have h2 : levTableRow s1 s2 i (j + 1) =
              levRec ((s1.take i).reverse) (s2[j] :: (s2.take j).reverse) := by
            rw [ih s1 s2 i (j + 1) (by omega) (by omega) (by omega), hrev2]
          have h3 : levRow s1 s2 i (levTableRow s1 s2 i) j =
              levRec (s1[i] :: (s1.take i).reverse) ((s2.take j).reverse) := by
            have hdef : levRow s1 s2 i (levTableRow s1 s2 i) j = levTableRow s1 s2 (i + 1) j := rfl
            rw [hdef, ih s1 s2 (i + 1) j (by omega) (by omega) (by omega), hrev1]
          by_cases hc : s1[i] = s2[j]
          · rw [if_pos hc, if_pos hc, h1]
          · rw [if_neg hc, if_neg hc, h1, h2, h3]

/-- C6: for every pair of strings, `levenshteinDistance` (the source's
dynamic program) equals the classic Levenshtein edit distance: it agrees
with the reference definition `levRec` by recursion on the two strings, and
it is the least number of single-character insertions, deletions and
substitutions transforming the first string into the second (`Edits`). -/
theorem levenshteinDistance_correct (str1 str2 : String) :
    levenshteinDistance str1 str2 = levRec str1.data str2.data ∧
    Edits str1.data str2.data (levenshteinDistance str1 str2) ∧
    ∀ n, Edits str1.data str2.data n → levenshteinDistance str1 str2 ≤ n := by
  have hb : levenshteinDistance str1 str2 = levRec str1.data str2.data := by
    unfold levenshteinDistance
    rw [levTableRow_eq_levRec (str1.data.length + str2.data.length) str1.data
      str2.data str1.data.length str2.data.length le_rfl le_rfl le_rfl]
    rw [List.take_length, List.take_length, levRec_reverse]
  refine ⟨hb, ?_, ?_⟩
  · rw [hb]
    exact edits_levRec (str1.data.length + str2.data.length) str1.data str2.data le_rfl
  · intro n hn
    exact hb ▸ levRec_le_of_edits hn

/-- Witness for C6: concrete evaluation of the minimality clause, deleting
one character from "ab" to reach "b". -/
theorem levenshteinDistance_correct_witness : levenshteinDistance "ab" "b" ≤ 1 :=
  (levenshteinDistance_correct "ab" "b").2.2 1 (.delete 'a' (.keep 'b' .nil))

/-- C5: whenever the Levenshtein distance between the original and corrected
text is strictly below 3, the correction decision flow resolves to accept
(`true`) without presenting the confirmation modal (`false`), for every
possible external input. -/
theorem showCorrectionPreview_autoAccepts (original corrected : String)
    (userChoice : Option Bool)
    (h : levenshteinDistance original corrected < 3) :
    showCorrectionPreview original corrected userChoice = (true, false) := by
  unfold showCorrectionPreview
  rw [if_pos h]

/-- Witness for C5: "cat" vs "cot" are at distance 1, so even an explicit
reject input never gets the chance to be consulted. -/
theorem showCorrectionPreview_autoAccepts_witness :
    levenshteinDistance "cat" "cot" < 3 ∧
      showCorrectionPreview "cat" "cot" (some false) = (true, false) :=
  ⟨by decide, showCorrectionPreview_autoAccepts "cat" "cot" (some false) (by decide)⟩

/-- Counterexample to C1: the stored `autoMode` is true when the request is
handled but false at the moment the suggested reply is sent, the server
flags `autoSend`, and the reply is dispatched anyway — the guard
`data.autoSend && settings.autoMode` reuses the snapshot read before the
request, and the content script's response callback consults no setting. -/
theorem autoReply_dispatch_race_cex :
    autoReplyCycleDispatches { autoMode := true } false
      (.ok { suggestedReply := some "Sure!", autoSend := true }) = true := by
  decide

/-- C1 (amended): an auto-reply is never dispatched when `autoMode` is false
in the settings snapshot read at the start of `handleAutoReply`; the value
is not re-read after the server response, so only the request-time snapshot
(not the send-time stored value) gates dispatch. -/
theorem autoReply_not_dispatched_of_autoMode_false_at_request
    (settings : Settings) (storedAutoModeAtSend : Bool)
    (fetch : FetchOutcome AutoReplyData) (h : settings.autoMode = false) :
    autoReplyCycleDispatches settings storedAutoModeAtSend fetch = false := by
  simp [autoReplyCycleDispatches, handleAutoReply, h, contentScriptDispatches,
    truthyString]

/-- Witness for C1 (amended) at the default settings (auto-mode off). -/
theorem autoReply_not_dispatched_witness :
    DEFAULT_CONFIG.autoMode = false ∧
      autoReplyCycleDispatches DEFAULT_CONFIG true
        (.ok { suggestedReply := some "Yes", autoSend := true }) = false :=
  ⟨rfl, autoReply_not_dispatched_of_autoMode_false_at_request DEFAULT_CONFIG true
    (.ok { suggestedReply := some "Yes", autoSend := true }) rfl⟩

/-- C10: when the auto-reply request fails (network failure or non-2xx
response), `handleAutoReply` resolves with a null reply and no `autoSend`
flag, so the content script never dispatches a reply from a failed
request. -/
theorem autoReply_failure_never_autoSends (settings : Settings)
    (msg : String) (status : Nat) :
    (handleAutoReply settings (.netError msg)).1.reply = none ∧
    (handleAutoReply settings (.netError msg)).1.autoSend = false ∧
    contentScriptDispatches (handleAutoReply settings (.netError msg)).1 = false ∧
    (handleAutoReply settings (.httpError status)).1.reply = none ∧
    (handleAutoReply settings (.httpError status)).1.autoSend = false ∧
    contentScriptDispatches (handleAutoReply settings (.httpError status)).1 = false := by
  by_cases h : settings.autoMode <;>
    simp [handleAutoReply, h, contentScriptDispatches, truthyString]

/-- Counterexample to C2: with `enableProcessing` on, a 2xx response whose
`processedText` field is the empty string yields a result whose returned
`processedText` equals the original ("hello", via the `|| text` fallback)
while `changed` is true — so `changed` is not `processedText ≠ original`. -/
theorem processText_changed_flag_cex :
    ¬ (((handleProcessText DEFAULT_CONFIG "hello"
          (.ok { processedText := some "" })).1.changed = true) ↔
        (handleProcessText DEFAULT_CONFIG "hello"
          (.ok { processedText := some "" })).1.processedText ≠ "hello") := by
  decide

/-- C2 (amended): `changed` is computed from the raw server field:
`changed = (data.processedText ≠ original)` (a missing field is never equal
to a string). Whenever the field is present and non-empty this coincides
with the claimed `changed = (returned processedText ≠ original)`; with a
missing or empty field the returned `processedText` falls back to the
original while `changed` may still be true. -/
theorem processText_changed_matches_raw_field (settings : Settings)
    (text : String) (data : ProcessResponse)
    (h : settings.enableProcessing = true) :
    ((handleProcessText settings text (.ok data)).1.changed = true ↔
      data.processedText ≠ some text) ∧
    (∀ p, data.processedText = some p → p ≠ "" →
      ((handleProcessText settings text (.ok data)).1.changed = true ↔
        (handleProcessText settings text (.ok data)).1.processedText ≠ text)) := by
  constructor
  · simp [handleProcessText, h]
  · intro p hp hpne
    simp [handleProcessText, h, hp, jsStringOr, hpne]

/-- Witness for C2 (amended): a genuine correction ("hi" to "hi!") has
`changed = true` and a returned text differing from the original. -/
theorem processText_changed_matches_raw_field_witness :
    DEFAULT_CONFIG.enableProcessing = true ∧
      (((handleProcessText DEFAULT_CONFIG "hi"
            (.ok { processedText := some "hi!" })).1.changed = true ↔
          ({ processedText := some "hi!" } : ProcessResponse).processedText ≠ some "hi") ∧
        (∀ p, ({ processedText := some "hi!" } : ProcessResponse).processedText = some p →
          p ≠ "" →
          ((handleProcessText DEFAULT_CONFIG "hi"
              (.ok { processedText := some "hi!" })).1.changed = true ↔
            (handleProcessText DEFAULT_CONFIG "hi"
              (.ok { processedText := some "hi!" })).1.processedText ≠ "hi"))) :=
  ⟨rfl, processText_changed_matches_raw_field DEFAULT_CONFIG "hi"
    { processedText := some "hi!" } rfl⟩

/-- Counterexample to C3: a 2xx status response with `status: "completed"`
whose token field is empty (the contract marks `token` optional and the code
stores it unchecked) leaves storage with an empty `authToken` and
`authenticated = true`, violating the invariant right after an operation
that writes authentication state. -/
theorem authInvariant_empty_token_cex :
    ¬ authInvariant (applyPollStep (.completed "" "inst-1") DEFAULT_CONFIG) := by
  decide

/-- C3 (amended): the invariant (authToken empty iff not authenticated)
holds after completing authentication provided the completed response
carries a non-empty token; the token-clearing write of `getAuthStatus`
establishes it unconditionally; and every other authentication-state write
(verify flow, failure, timeout, pending-request save) preserves it. -/
theorem authInvariant_preserved :
    (∀ st tok inst, tok ≠ "" →
      authInvariant (applyPollStep (.completed tok inst) st)) ∧
    (∀ st, authInvariant (clearAuthWrite st)) ∧
    (∀ st verify, authInvariant st → authInvariant (getAuthStatus st verify).2) ∧
    (∀ st msg, authInvariant st → authInvariant (applyPollStep (.failed msg) st)) ∧
    (∀ st, authInvariant st → authInvariant (applyPollStep .timedOut st)) ∧
    (∀ st num rid, authInvariant st → authInvariant (authRequestSave st num rid)) := by
  refine ⟨?_, ?_, ?_, ?_, ?_, ?_⟩
  · intro st tok inst htok
    simp [authInvariant, applyPollStep, htok]
  · intro st
    simp [authInvariant, clearAuthWrite]
  · intro st verify h
    unfold getAuthStatus
    by_cases he : st.authToken = ""
    · simpa [he] using h
    · cases verify with
      | ok _ => simpa [he] using h
      | httpError _ => simp [he, authInvariant, clearAuthWrite]
      | netError _ => simp [he, authInvariant, clearAuthWrite]
  · intro st msg h
    simpa [authInvariant, applyPollStep] using h
  · intro st h
    simpa [authInvariant, applyPollStep] using h
  · intro st num rid h
    simpa [authInvariant, authRequestSave] using h

/-- Witness for C3 (amended): completing with a non-empty token and a
verify-failure clearing both restore the invariant from the defaults. -/
theorem authInvariant_preserved_witness :
    ("tok-1" : String) ≠ "" ∧ authInvariant DEFAULT_CONFIG ∧
      authInvariant (applyPollStep (.completed "tok-1" "inst-1") DEFAULT_CONFIG) ∧
      authInvariant (getAuthStatus DEFAULT_CONFIG (.netError "down")).2 :=
  ⟨by decide, by decide,
    authInvariant_preserved.1 DEFAULT_CONFIG "tok-1" "inst-1" (by decide),
    authInvariant_preserved.2.2.1 DEFAULT_CONFIG (.netError "down") (by decide)⟩

/-- C4: on a network failure or a non-2xx status, `handleProcessText`
resolves with the original text, `changed = false` and an attached error,
and `handleGrammarCorrection` resolves with the original text and an
attached error; both are total functions (the JS catch blocks never
re-raise), so a processing failure never prevents the original text from
being delivered. -/
theorem processing_failure_fails_open (settings : Settings)
    (text msg : String) (status : Nat)
    (h : settings.enableProcessing = true) :
    (handleProcessText settings text (.netError msg)).1.processedText = text ∧
    (handleProcessText settings text (.netError msg)).1.changed = false ∧
    (handleProcessText settings text (.netError msg)).1.error = some msg ∧
    (handleProcessText settings text (.httpError status)).1.processedText = text ∧
    (handleProcessText settings text (.httpError status)).1.changed = false ∧
    (handleProcessText settings text (.httpError status)).1.error.isSome = true ∧
    (handleGrammarCorrection settings text (.netError msg)).1.processedText = text ∧
    (handleGrammarCorrection settings text (.netError msg)).1.error = some msg ∧
    (handleGrammarCorrection settings text (.httpError status)).1.processedText = text ∧
    (handleGrammarCorrection settings text (.httpError status)).1.error.isSome = true := by
  simp [handleProcessText, handleGrammarCorrection, h]

/-- Witness for C4 at the default settings, a 500 status and a transport
failure. -/
theorem processing_failure_fails_open_witness :
    DEFAULT_CONFIG.enableProcessing = true ∧
      ((handleProcessText DEFAULT_CONFIG "hi" (.netError "net down")).1.processedText = "hi" ∧
        (handleProcessText DEFAULT_CONFIG "hi" (.netError "net down")).1.changed = false ∧
        (handleProcessText DEFAULT_CONFIG "hi" (.netError "net down")).1.error = some "net down" ∧
        (handleProcessText DEFAULT_CONFIG "hi" (.httpError 500)).1.processedText = "hi" ∧
        (handleProcessText DEFAULT_CONFIG "hi" (.httpError 500)).1.changed = false ∧
        (handleProcessText DEFAULT_CONFIG "hi" (.httpError 500)).1.error.isSome = true ∧
        (handleGrammarCorrection DEFAULT_CONFIG "hi" (.netError "net down")).1.processedText = "hi" ∧
        (handleGrammarCorrection DEFAULT_CONFIG "hi" (.netError "net down")).1.error = some "net down" ∧
        (handleGrammarCorrection DEFAULT_CONFIG "hi" (.httpError 500)).1.processedText = "hi" ∧
        (handleGrammarCorrection DEFAULT_CONFIG "hi" (.httpError 500)).1.error.isSome = true) :=
  ⟨rfl, processing_failure_fails_open DEFAULT_CONFIG "hi" "net down" 500 rfl⟩

/-- C9: with `enableProcessing` false, `handleProcessText` short-circuits to
the unchanged input with `changed = false` and issues zero network
requests, for every fetch environment. -/
theorem processText_disabled_no_network (settings : Settings) (text : String)
    (fetch : FetchOutcome ProcessResponse)
    (h : settings.enableProcessing = false) :
    (handleProcessText settings text fetch).1.processedText = text ∧
    (handleProcessText settings text fetch).1.changed = false ∧
    (handleProcessText settings text fetch).2 = 0 := by
  simp [handleProcessText, h]

/-- Witness for C9: the spec's scenario, `processText "hello"` with
processing disabled. -/
theorem processText_disabled_no_network_witness :
    ({ enableProcessing := false } : Settings).enableProcessing = false ∧
      ((handleProcessText { enableProcessing := false } "hello" (.ok {})).1.processedText = "hello" ∧
        (handleProcessText { enableProcessing := false } "hello" (.ok {})).1.changed = false ∧
        (handleProcessText { enableProcessing := false } "hello" (.ok {})).2 = 0) :=
  ⟨rfl, processText_disabled_no_network { enableProcessing := false } "hello" (.ok {}) rfl⟩

/-- C7: whenever the entered number, trimmed and stripped of whitespace,
dashes and parentheses, fails the phone regex (optional leading plus, 10 to
15 digits), the popup authentication flow ends in an input-validation error
and sends no `authenticate` message, hence no pairing HTTP request. -/
theorem requestAuthentication_invalid_input (rawInput : String)
    (h : phoneRegexAccepts (cleanWhatsappNumber (jsTrim rawInput)) = false) :
    (popupHandleAuthentication rawInput = .emptyInput ∨
      popupHandleAuthentication rawInput = .invalidFormat) ∧
    popupAuthRequestsSent (popupHandleAuthentication rawInput) = 0 := by
  unfold popupHandleAuthentication
  by_cases he : jsTrim rawInput = ""
  · simp [he, popupAuthRequestsSent]
  · simp [he, h, popupAuthRequestsSent]

/-- Witness for C7: "12ab3" fails the format check and is rejected without
any request. -/
theorem requestAuthentication_invalid_input_witness :
    phoneRegexAccepts (cleanWhatsappNumber (jsTrim "12ab3")) = false ∧
      ((popupHandleAuthentication "12ab3" = .emptyInput ∨
          popupHandleAuthentication "12ab3" = .invalidFormat) ∧
        popupAuthRequestsSent (popupHandleAuthentication "12ab3") = 0) :=
  ⟨by decide, requestAuthentication_invalid_input "12ab3" (by decide)⟩

theorem pollAuthCompletion_at_61 (fetch : FetchOutcome StatusData) :
    pollAuthCompletion 61 fetch = (.timedOut, 0) := by
  unfold pollAuthCompletion
  rw [if_pos (by omega)]

theorem pollAuthCompletion_reschedule {a : Nat} {fetch : FetchOutcome StatusData}
    {n c : Nat} (h : pollAuthCompletion a fetch = (.reschedule n, c)) :
    n = a + 1 ∧ c = 1 ∧ a ≤ 60 := by
  unfold pollAuthCompletion at h
  by_cases hgt : a > 60
  · rw [if_pos hgt] at h
    simp at h
  · rw [if_neg hgt] at h
    cases fetch with
    | ok data =>
        by_cases h1 : data.status = "completed"
        · simp [h1] at h
        · by_cases h2 : data.status = "failed"
          · simp [h1, h2] at h
          · simp [h1, h2] at h
            omega
    | httpError status =>
        simp at h
        omega
    | netError msg =>
        simp at h
        omega

theorem pollAuthCompletion_calls_le (a : Nat) (fetch : FetchOutcome StatusData) :
    (pollAuthCompletion a fetch).2 ≤ 1 := by
  unfold pollAuthCompletion
  by_cases hgt : a > 60
  · simp [hgt]
  · cases fetch with
    | ok data =>
        by_cases h1 : data.status = "completed" <;>
          by_cases h2 : data.status = "failed" <;>
            simp [hgt, h1, h2]
    | httpError status => simp [hgt]
    | netError msg => simp [hgt]

theorem pollLoop_reschedule {responses : Nat → FetchOutcome StatusData}
    {a n c : Nat}
    (h : pollAuthCompletion a (responses a) = (.reschedule n, c)) :
    pollLoop responses a =
      ((pollLoop responses (a + 1)).1,
       (pollLoop responses (a + 1)).2.1 + 1,
       (pollLoop responses (a + 1)).2.2 + c) := by
  rw [pollLoop]
  split
  · simp_all
  · simp_all

theorem pollLoop_terminal {responses : Nat → FetchOutcome StatusData}
    {a c : Nat} {step : PollStep}
    (h : pollAuthCompletion a (responses a) = (step, c))
    (hstep : ∀ n, step ≠ .reschedule n) :
    pollLoop responses a = (step, 1, c) := by
  rw [pollLoop]
  split
  · rename_i n calls heq
    rw [h] at heq
    cases heq
    exact absurd rfl (hstep n)
  · rename_i stepv callsv hexc heq
    rw [h] at heq
    cases heq
    rfl

theorem pollLoop_pending :
    ∀ (k a : Nat), a + k = 62 → 0 < k →
      pollLoop (fun _ => .ok { status := "pending" }) a = (.timedOut, k, k - 1) := by
  intro k
  induction k with
  | zero =>
      intro a h h2
      omega
  | succ k ih =>
      intro a h _
      by_cases hk : a > 60
      · obtain rfl : a = 61 := by omega
        obtain rfl : k = 0 := by omega
        rw [pollLoop_terminal (pollAuthCompletion_at_61 _)
          (fun n hn => PollStep.noConfusion hn)]
      · have hstep : pollAuthCompletion a
            ((fun _ => FetchOutcome.ok { status := "pending" } :
              Nat → FetchOutcome StatusData) a) =
            (.reschedule (a + 1), 1) := by
          unfold pollAuthCompletion
          rw [if_neg hk]
          simp
        rw [pollLoop_reschedule hstep, ih (a + 1) (by omega) (by omega)]
        simp [Prod.ext_iff]
        omega

theorem pollLoop_le :
    ∀ (k : Nat) (responses : Nat → FetchOutcome StatusData) (a : Nat),
      a ≤ 61 → 61 - a ≤ k →
      (pollLoop responses a).2.1 ≤ 62 - a ∧ (pollLoop responses a).2.2 ≤ 61 - a := by
  intro k
  induction k with
  | zero =>
      intro responses a ha hk
      obtain rfl : a = 61 := by omega
      rw [pollLoop_terminal (pollAuthCompletion_at_61 _)
        (fun n hn => PollStep.noConfusion hn)]
      simp
  | succ k ih =>
      intro responses a ha hk
      by_cases h61 : a = 61
      · subst h61
        rw [pollLoop_terminal (pollAuthCompletion_at_61 _)
          (fun n hn => PollStep.noConfusion hn)]
        simp
      · rcases hstep : pollAuthCompletion a (responses a) with ⟨step, c⟩
        have hcle := pollAuthCompletion_calls_le a (responses a)
        rw [hstep] at hcle
        simp at hcle
        cases step with
        | reschedule n =>
            obtain ⟨hn, hc, hle⟩ := pollAuthCompletion_reschedule hstep
            subst hn
            subst hc
            rw [pollLoop_reschedule hstep]
            have hrec := ih responses (a + 1) (by omega) (by omega)
            constructor <;> simp <;> omega
        | timedOut =>
            rw [pollLoop_terminal hstep (fun n hn => PollStep.noConfusion hn)]
            constructor <;> simp <;> omega
        | completed tok inst =>
            rw [pollLoop_terminal hstep (fun n hn => PollStep.noConfusion hn)]
            constructor <;> simp <;> omega
        | failed msg =>
            rw [pollLoop_terminal hstep (fun n hn => PollStep.noConfusion hn)]
            constructor <;> simp <;> omega

/-- Counterexample to C8's invocation count: with a server that always
reports a pending status, the background polling loop started at attempt 0
performs 62 invocations (attempts 0 through 61, the last one timing out and
issuing no request) — more than the claimed 61. -/
theorem pollLoop_62_invocations_cex :
    pollLoop (fun _ => .ok { status := "pending" }) 0 = (.timedOut, 62, 61) ∧
      ¬ (62 ≤ 61) :=
  ⟨pollLoop_pending 62 0 rfl (by omega), by omega⟩

/-- C8 (amended): an auth-status poll invoked with attempt = 61 immediately
yields the timed-out outcome and issues no network request, in both the
background worker (where the timeout write also clears the pending flag)
and the popup; consequently, since the attempt counter strictly increases
on each reschedule, every polling loop terminates after at most 62
invocations, of which at most 61 issue network requests. -/
theorem pollStatus_timeout_cap :
    (∀ fetch, pollAuthCompletion 61 fetch = (.timedOut, 0)) ∧
    (∀ st, (applyPollStep .timedOut st).authPending = false) ∧
    (∀ authenticated, pollAuthStatus 61 authenticated = (.timedOut, 0)) ∧
    (∀ responses, (pollLoop responses 0).2.1 ≤ 62 ∧ (pollLoop responses 0).2.2 ≤ 61) := by
  refine ⟨pollAuthCompletion_at_61, fun st => rfl, ?_, ?_⟩
  · intro authenticated
    unfold pollAuthStatus
    rw [if_pos (by omega)]
  · intro responses
    have hb := pollLoop_le 61 responses 0 (by omega) (by omega)
    constructor <;> omega
